import Mathlib

/-!
Shallow embedding of the cfc-transfer-bot repository (Python) and proofs about
its filtering / deduplication core.

Python strings are modelled as `List Char`; Python's substring test
`needle in haystack` is `containsSub`, and `str.lower()` is `lowerChars`
(the keyword lists the code matches against are ASCII or already lowercase,
so ASCII lowercasing is faithful on every comparison the code performs).
-/

namespace TransferBotRepo

/-- Python `pat in hay` substring containment on character lists. -/
def containsSub (pat : List Char) : List Char → Bool
  | [] => pat.isEmpty
  | c :: rest => pat.isPrefixOf (c :: rest) || containsSub pat rest

/-- Python `str.lower()` restricted to per-character lowercasing. -/
def lowerChars (s : List Char) : List Char := s.map Char.toLower

/-! ### src/bot/shared/content_analyzer.py -/

namespace ContentAnalyzer

/-- `TIER_1_SOURCES` from content_analyzer.py. -/
def TIER_1_SOURCES : List (List Char) :=
  ["fabrizio romano", "david ornstein", "sky sports", "the athletic",
   "guardian", "bbc sport", "florian plettenberg"].map String.toList

/-- `TIER_2_SOURCES` from content_analyzer.py. -/
def TIER_2_SOURCES : List (List Char) :=
  ["di marzio", "bild", "kicker", "sport bild", "marca", "as"].map String.toList

/-- `HIGH_CONFIDENCE_FORMATS` from content_analyzer.py. -/
def HIGH_CONFIDENCE_FORMATS : List (List Char) :=
  ["📝 deal done", "🚨 official", "here we go", "🚨 breaking", "🚨 confirmed"].map String.toList

/-- `TRANSFER_KEYWORDS` from content_analyzer.py. -/
def TRANSFER_KEYWORDS : List (List Char) :=
  ["transfer", "signing", "signs", "joins", "agreement", "deal", "contract",
   "move", "bid", "offer", "target", "medical", "done deal", "official",
   "confirmed", "breaking", "exclusive", "loan", "release clause"].map String.toList

/-- `SPAM_INDICATORS` from content_analyzer.py. -/
def SPAM_INDICATORS : List (List Char) :=
  ["t.me/+", "betting", "casino", "place your bets", "promo code",
   "free spins", "bonus", "click here", "register now"].map String.toList

/-- `ContentAnalyzer.is_spam`. -/
def is_spam (text : List Char) : Bool :=
  SPAM_INDICATORS.any (fun ind => containsSub ind (lowerChars text))

/-- `ContentAnalyzer.get_source_tier`: the Python loops return on the first
matching source, which is the same as testing each list for any match,
tier-1 list first. -/
def get_source_tier (text : List Char) : Nat :=
  if TIER_1_SOURCES.any (fun s => containsSub s (lowerChars text)) then 1
  else if TIER_2_SOURCES.any (fun s => containsSub s (lowerChars text)) then 2
  else 3

/-- `ContentAnalyzer.get_confidence_level`. -/
def get_confidence_level (text : List Char) : String :=
  if HIGH_CONFIDENCE_FORMATS.any (fun f => containsSub f (lowerChars text)) then "high"
  else if TRANSFER_KEYWORDS.any (fun k => containsSub k (lowerChars text)) then "medium"
  else "low"

/-- `ContentAnalyzer.is_transfer_related`. -/
def is_transfer_related (text : List Char) : Bool :=
  TRANSFER_KEYWORDS.any (fun k => containsSub k (lowerChars text))

/-- `ContentAnalyzer.should_post`: Python `if not clubs_detected` is the
emptiness test on the detected-clubs list. -/
def should_post (text : List Char) (clubs_detected : List String) : Bool :=
  if is_spam text then false
  else if clubs_detected.isEmpty then false
  else if !is_transfer_related text then false
  else
    let source_tier := get_source_tier text
    let confidence := get_confidence_level text
    if confidence = "high" then decide (source_tier ≤ 2)
    else if confidence = "medium" then decide (source_tier = 1)
    else false

end ContentAnalyzer

/-! ### src/bot/shared/club_configs.py -/

namespace ClubConfigs

/-- `CLUB_CONFIGS` from club_configs.py, keeping the dict's insertion order
and, per club, only the fields the filtering logic reads (`key`, `keywords`). -/
def CLUB_CONFIGS : List (String × List (List Char)) :=
  [("chelsea", ["chelsea", "cfc", "blues", "stamford bridge"].map String.toList),
   ("arsenal", ["arsenal", "afc", "gunners", "emirates"].map String.toList),
   ("tottenham", ["tottenham", "spurs", "thfc", "coys", "white hart lane"].map String.toList),
   ("man_united",
    ["manchester united", "man united", "man utd", "mufc", "red devils",
     "old trafford"].map String.toList),
   ("man_city",
    ["manchester city", "man city", "mcfc", "city", "citizens", "etihad"].map String.toList),
   ("real_madrid",
    ["real madrid", "madrid", "real", "los blancos", "bernabeu"].map String.toList),
   ("barcelona",
    ["barcelona", "barca", "barça", "fcb", "blaugrana", "camp nou"].map String.toList)]

/-- `detect_clubs` from club_configs.py: the inner Python loop appends the
club key once and breaks on the first keyword hit, which is `filterMap`
with an any-keyword test. -/
def detect_clubs (text : List Char) : List String :=
  CLUB_CONFIGS.filterMap (fun cfg =>
    if cfg.2.any (fun kw => containsSub kw (lowerChars text)) then some cfg.1 else none)

end ClubConfigs

/-! ### src/bot/shared/storage.py -/

namespace Storage

/-- The hardcoded cap in `MessageStorage.save` (`2000`). -/
def SEEN_CAP : Nat := 2000

/-- `MessageStorage.save`: the code runs `seen_list = list(self.seen_messages)`
on a Python `set` — whose iteration order is arbitrary, not insertion order —
and then truncates with `seen_list[-2000:]` when the length exceeds the cap.
The embedding therefore takes the enumerated list `seen_list` as its input;
any permutation of the set's elements is a legal enumeration. -/
def save (seen_list : List α) : List α :=
  if SEEN_CAP < seen_list.length then seen_list.drop (seen_list.length - SEEN_CAP)
  else seen_list

/-- The in-memory effect of `MessageStorage.save` (and of
`MultiClubRedditBot.save_seen_submissions`, the same code): the interpreter
enumerates the set in arbitrary order (`seen_list = list(self.seen_messages)`,
argument `e`); when the cap is exceeded the in-memory set is replaced by the
last `SEEN_CAP` entries of that enumeration (`self.seen_messages =
set(seen_list)`), otherwise the set is left unchanged and only the file is
written. -/
def save_mem (σ e : List String) : List String :=
  if SEEN_CAP < e.length then e.drop (e.length - SEEN_CAP) else σ

end Storage

/-! ### src/bot/shared/discord_sender.py and the identical webhook loop in
`MultiClubRedditBot.send_to_discord` (src/reddit_bot.py). -/

/-- Outcome of one `requests.post` to a webhook: an HTTP status code, or a
raised `RequestException` caught by the per-destination handler. -/
inductive PostOutcome
  | status (code : Nat)
  | exn
deriving DecidableEq

namespace DiscordSender

/-- The webhook loop body shared by `DiscordSender.send_message` and
`MultiClubRedditBot.send_to_discord`: walk every configured webhook,
incrementing `success_count` exactly on a 204 response; the second component
counts loop iterations (the source loop has no early exit). -/
def webhook_loop : List PostOutcome → Nat → Nat → Nat × Nat
  | [], success_count, attempted => (success_count, attempted)
  | PostOutcome.status 204 :: rest, success_count, attempted =>
      webhook_loop rest (success_count + 1) (attempted + 1)
  | _ :: rest, success_count, attempted =>
      webhook_loop rest success_count (attempted + 1)

/-- `DiscordSender.send_message`, abstracted over the per-destination HTTP
outcomes: returns (delivered?, success_count, destinations attempted). -/
def send_message (outcomes : List PostOutcome) : Bool × Nat × Nat :=
  let r := webhook_loop outcomes 0 0
  (decide (0 < r.1), r.1, r.2)

/-- `MultiClubRedditBot.send_to_discord`'s webhook fan-out, line for line the
same loop as `DiscordSender.send_message`. -/
def send_to_discord (outcomes : List PostOutcome) : Bool × Nat × Nat :=
  let r := webhook_loop outcomes 0 0
  (decide (0 < r.1), r.1, r.2)

end DiscordSender

/-- Specification-side counter: how many outcomes in the list are the
accepted (204) status. -/
def count204 : List PostOutcome → Nat
  | [] => 0
  | PostOutcome.status 204 :: rest => count204 rest + 1
  | _ :: rest => count204 rest

/-! ### src/reddit_bot.py -/

namespace RedditBot

/-- `MultiClubRedditBot.is_transfer_related`'s keyword list. -/
def transfer_keywords : List (List Char) :=
  ["transfer", "signing", "signs", "joins", "agreement", "deal",
   "contract", "move", "bid", "offer", "target", "rumour", "rumor",
   "exclusive", "breaking", "confirmed", "announces", "loan",
   "release clause", "medical", "here we go", "done deal",
   "official", "unveil", "welcome", "new signing"].map String.toList

/-- `MultiClubRedditBot.is_transfer_related(title, text)`: the content is the
f-string `f"{title} {text}"`, lowercased. -/
def is_transfer_related (title : List Char) (text : List Char) : Bool :=
  let content := lowerChars (title ++ ' ' :: text)
  transfer_keywords.any (fun k => containsSub k content)

/-- `self.target_flairs` in `MultiClubRedditBot.__init__`. -/
def target_flairs : List (List Char) :=
  ["Tier 1", "Tier 2", "Official Source"].map String.toList

/-- A praw submission, restricted to the fields `process_submission` reads:
`link_flair_text` is `None` or a string, `score` is a (possibly negative)
integer. -/
structure Submission where
  id : String
  title : List Char
  selftext : List Char
  link_flair_text : Option (List Char)
  score : Int

/-- The filtering decision inside `MultiClubRedditBot.process_submission`
(everything between the seen-check and the Discord send): `true` means the
submission reaches the notification step. Python truthiness of
`submission.link_flair_text` (`None` and `""` are falsy) is spelled out. -/
def accept_submission (s : Submission) (club_key : String) : Bool :=
  if club_key ≠ "soccer" then
    match s.link_flair_text with
    | some f => target_flairs.contains f
    | none => false
  else if !is_transfer_related s.title s.selftext then false
  else if s.score < 100 then false
  else
    match s.link_flair_text with
    | some f =>
        if f ≠ [] ∧ f ∉ target_flairs then
          if containsSub "tier".toList (lowerChars f) then false else true
        else true
    | none => true

end RedditBot

/-! ### Seen-set state (storage.py `is_seen` / `mark_seen`, and the
`self.seen_submissions` set in reddit_bot.py)

The in-memory Python set is modelled as a duplicate-free list; only
membership and insertion are used by the pipelines. -/

/-- `MessageStorage.is_seen` / `submission.id in self.seen_submissions`. -/
def is_seen (σ : List String) (id : String) : Bool := σ.contains id

/-- Python `set.add`: insertion, a no-op when the identifier is already
present. -/
def set_add (σ : List String) (id : String) : List String :=
  if σ.contains id then σ else σ ++ [id]

/-- `MessageStorage.mark_seen` (storage.py), which is also the
add-then-periodic-save step on the accept path of
`MultiClubRedditBot.process_submission` (reddit_bot.py): insert the
identifier, then, when the resulting set size is a multiple of 20, run the
save — whose truncation acts on the arbitrary-order set enumeration `enum`
(a legal `enum` lists exactly the set's elements, in any order). -/
def mark_seen (enum : List String → List String) (σ : List String) (id : String) :
    List String :=
  if (set_add σ id).length % 20 = 0 then
    Storage.save_mem (set_add σ id) (enum (set_add σ id))
  else set_add σ id

/-! ### src/bot/main.py -/

namespace BotMain

/-- A parsed channel message, restricted to the fields
`TransferBot.process_message` reads. -/
structure Message where
  id : String
  text : List Char

/-- `TransferBot.process_message`, returning (value returned, seen set after
the call, clubs for which a Discord notification was attempted).  The Discord
round-trips themselves are external I/O; the third component records exactly
the `send_message` calls the loop issues (`club_key in CLUB_CONFIGS` filter
included), and the returned value does not depend on their outcomes. -/
def process_message (enum : List String → List String) (σ : List String)
    (m : Message) : Bool × List String × List String :=
  if is_seen σ m.id then (false, σ, [])
  else
    let clubs_detected := ClubConfigs.detect_clubs m.text
    let sp := ContentAnalyzer.should_post m.text clubs_detected
    let σ1 := mark_seen enum σ m.id
    if sp then
      (true, σ1,
       clubs_detected.filter (fun k => ClubConfigs.CLUB_CONFIGS.any (fun c => c.1 = k)))
    else (false, σ1, [])

/-- `TelegramSource.fetch_recent_messages(limit)`: the most recent `limit`
items of the feed, newest first (`msgs` is the feed, newest first). -/
def fetch_recent (msgs : List Message) (limit : Nat) : List Message :=
  msgs.take limit

/-- The inner loop of `TransferBot.find_first_sendable_message`:
`for message_data in reversed(messages): if not seen: if process: return True`,
threading the seen set. -/
def window_loop (enum : List String → List String) :
    List Message → List String → Bool × List String
  | [], σ => (false, σ)
  | m :: rest, σ =>
      if is_seen σ m.id then window_loop enum rest σ
      else
        let r := process_message enum σ m
        if r.1 then (true, r.2.1) else window_loop enum rest r.2.1

/-- The outer loop of `find_first_sendable_message` over the remaining
window sizes. -/
def search_loop (enum : List String → List String) (msgs : List Message) :
    List Nat → List String → Bool × List String
  | [], σ => (false, σ)
  | limit :: rest, σ =>
      let w := window_loop enum (fetch_recent msgs limit).reverse σ
      if w.1 then (true, w.2) else search_loop enum msgs rest w.2

/-- `TransferBot.find_first_sendable_message(max_limit=50)`:
`for check_limit in range(1, max_limit + 1)` is `List.range' 1 max_limit`. -/
def find_first_sendable_message (enum : List String → List String)
    (msgs : List Message) (σ : List String) (max_limit : Nat := 50) :
    Bool × List String :=
  search_loop enum msgs (List.range' 1 max_limit) σ

/-- Specification-side reference for the search: process the feed newest
first, one message at a time, stopping at the first message whose processing
posts. -/
def scan_messages (enum : List String → List String) :
    List Message → List String → Bool × List String
  | [], σ => (false, σ)
  | m :: rest, σ =>
      let r := process_message enum σ m
      if r.1 then (true, r.2.1) else scan_messages enum rest r.2.1

end BotMain

namespace RedditBot

/-- `MultiClubRedditBot.process_submission`, returning (value returned, seen
set after the call, number of Discord fan-out attempts made during the call).
`send_ok` abstracts the value `send_to_discord` returns when it is reached.
Every reject branch does a bare `self.seen_submissions.add` before returning
`False`; the accept branch adds the id after the send and then runs the
every-20th-insertion `save_seen_submissions`, whose truncation acts on the
arbitrary set enumeration `enum` (that is, `mark_seen`). -/
def process_submission (enum : List String → List String) (σ : List String)
    (s : Submission) (club_key : String) (send_ok : Bool) :
    Bool × List String × Nat :=
  if is_seen σ s.id then (false, σ, 0)
  else if accept_submission s club_key then
    (send_ok, mark_seen enum σ s.id, 1)
  else (false, set_add σ s.id, 0)

end RedditBot

end TransferBotRepo

/-! ### Helper lemmas -/

namespace TransferBotRepo

theorem is_seen_iff (σ : List String) (x : String) : is_seen σ x = true ↔ x ∈ σ :=
  List.elem_iff

theorem mem_set_add_self (σ : List String) (x : String) : x ∈ set_add σ x := by
  unfold set_add
  split_ifs with h
  · exact List.elem_iff.mp h
  · simp

theorem mem_set_add_of_mem (σ : List String) (x y : String) (h : y ∈ σ) :
    y ∈ set_add σ x := by
  unfold set_add
  split_ifs <;> simp [h]

theorem set_add_of_not_mem (σ : List String) (x : String) (h : x ∉ σ) :
    set_add σ x = σ ++ [x] := by
  unfold set_add
  rw [if_neg (fun hc => h (List.elem_iff.mp hc))]

theorem set_add_length_le (σ : List String) (x : String) :
    (set_add σ x).length ≤ σ.length + 1 := by
  unfold set_add
  split_ifs <;> simp

theorem mark_seen_small (enum : List String → List String)
    (henum : ∀ l, (enum l).Perm l) (σ : List String) (id : String)
    (h : σ.length < Storage.SEEN_CAP) : mark_seen enum σ id = set_add σ id := by
  have hle : (enum (set_add σ id)).length ≤ Storage.SEEN_CAP := by
    rw [(henum (set_add σ id)).length_eq]
    have := set_add_length_le σ id
    omega
  unfold mark_seen Storage.save_mem
  split_ifs with h1 h2
  · exact absurd h2 (by omega)
  · rfl
  · rfl

theorem tier_cases (text : List Char) :
    ContentAnalyzer.get_source_tier text = 1 ∨ ContentAnalyzer.get_source_tier text = 2 ∨
      ContentAnalyzer.get_source_tier text = 3 := by
  unfold ContentAnalyzer.get_source_tier
  split_ifs <;> simp

theorem process_message_state (enum : List String → List String) (σ : List String)
    (m : BotMain.Message) :
    (BotMain.process_message enum σ m).2.1 =
      if m.id ∈ σ then σ else mark_seen enum σ m.id := by
  unfold BotMain.process_message
  by_cases h : m.id ∈ σ
  · rw [if_pos ((is_seen_iff σ m.id).mpr h), if_pos h]
  · rw [if_neg (fun hc => h ((is_seen_iff σ m.id).mp hc)), if_neg h]
    dsimp only
    split_ifs <;> rfl

theorem process_message_of_seen (enum : List String → List String)
    (σ : List String) (m : BotMain.Message) (h : m.id ∈ σ) :
    BotMain.process_message enum σ m = (false, σ, []) := by
  unfold BotMain.process_message
  rw [if_pos ((is_seen_iff σ m.id).mpr h)]

theorem process_message_fst_unseen (enum : List String → List String)
    (σ : List String) (m : BotMain.Message) (h : m.id ∉ σ) :
    (BotMain.process_message enum σ m).1 =
      ContentAnalyzer.should_post m.text (ClubConfigs.detect_clubs m.text) := by
  unfold BotMain.process_message
  rw [if_neg (fun hc => h ((is_seen_iff σ m.id).mp hc))]
  dsimp only
  split_ifs with hd <;> simp [hd]

theorem process_message_mem_small (enum : List String → List String)
    (henum : ∀ l, (enum l).Perm l) (σ : List String) (m : BotMain.Message)
    (hσ : σ.length < Storage.SEEN_CAP) :
    m.id ∈ (BotMain.process_message enum σ m).2.1 := by
  rw [process_message_state]
  split_ifs with h
  · exact h
  · rw [mark_seen_small enum henum σ m.id hσ]
    exact mem_set_add_self σ m.id

theorem process_message_mono_small (enum : List String → List String)
    (henum : ∀ l, (enum l).Perm l) (σ : List String) (m : BotMain.Message)
    (y : String) (hσ : σ.length < Storage.SEEN_CAP) (h : y ∈ σ) :
    y ∈ (BotMain.process_message enum σ m).2.1 := by
  rw [process_message_state]
  split_ifs
  · exact h
  · rw [mark_seen_small enum henum σ m.id hσ]
    exact mem_set_add_of_mem σ m.id y h

theorem process_message_length_small (enum : List String → List String)
    (henum : ∀ l, (enum l).Perm l) (σ : List String) (m : BotMain.Message)
    (hσ : σ.length < Storage.SEEN_CAP) :
    (BotMain.process_message enum σ m).2.1.length ≤ σ.length + 1 := by
  rw [process_message_state]
  split_ifs
  · omega
  · rw [mark_seen_small enum henum σ m.id hσ]
    exact set_add_length_le σ m.id

theorem webhook_loop_spec (outcomes : List PostOutcome) (s a : Nat) :
    DiscordSender.webhook_loop outcomes s a = (s + count204 outcomes, a + outcomes.length) := by
  induction outcomes generalizing s a with
  | nil => simp [DiscordSender.webhook_loop, count204]
  | cons o rest ih =>
      rcases o with code | _
      · by_cases hc : code = 204
        · subst hc
          rw [show DiscordSender.webhook_loop (PostOutcome.status 204 :: rest) s a =
              DiscordSender.webhook_loop rest (s + 1) (a + 1) from rfl, ih]
          simp [count204]
          omega
        · simp [DiscordSender.webhook_loop, hc, ih, count204]
          omega
      · rw [show DiscordSender.webhook_loop (PostOutcome.exn :: rest) s a =
            DiscordSender.webhook_loop rest s (a + 1) from rfl, ih]
        simp [count204]
        omega

theorem count204_pos (l : List PostOutcome) :
    0 < count204 l ↔ PostOutcome.status 204 ∈ l := by
  induction l with
  | nil => simp [count204]
  | cons o rest ih =>
      rcases o with code | _
      · by_cases hc : code = 204
        · subst hc
          simp [count204]
        · simp [count204, hc, ih, Ne.symm hc]
      · simp [count204, ih]

theorem containsSub_iff (pat hay : List Char) :
    containsSub pat hay = true ↔ pat <:+: hay := by
  induction hay with
  | nil => simp [containsSub, List.isEmpty_iff, List.infix_nil]
  | cons c rest ih =>
      rw [show containsSub pat (c :: rest) =
          (pat.isPrefixOf (c :: rest) || containsSub pat rest) from rfl]
      rw [Bool.or_eq_true, ih, List.isPrefixOf_iff_prefix]
      exact Iff.symm List.infix_cons_iff

theorem scan_cons (enum : List String → List String) (m : BotMain.Message)
    (rest : List BotMain.Message) (σ : List String) :
    BotMain.scan_messages enum (m :: rest) σ =
      if (BotMain.process_message enum σ m).1 then
        (true, (BotMain.process_message enum σ m).2.1)
      else BotMain.scan_messages enum rest (BotMain.process_message enum σ m).2.1 := rfl

theorem window_unfold (enum : List String → List String) (m : BotMain.Message)
    (rest : List BotMain.Message) (σ : List String) :
    BotMain.window_loop enum (m :: rest) σ =
      if is_seen σ m.id then BotMain.window_loop enum rest σ
      else
        if (BotMain.process_message enum σ m).1 then
          (true, (BotMain.process_message enum σ m).2.1)
        else BotMain.window_loop enum rest (BotMain.process_message enum σ m).2.1 := rfl

theorem window_cons (enum : List String → List String) (m : BotMain.Message)
    (rest : List BotMain.Message) (σ : List String) :
    BotMain.window_loop enum (m :: rest) σ =
      if (BotMain.process_message enum σ m).1 then
        (true, (BotMain.process_message enum σ m).2.1)
      else BotMain.window_loop enum rest (BotMain.process_message enum σ m).2.1 := by
  rw [window_unfold]
  by_cases h : m.id ∈ σ
  · rw [if_pos ((is_seen_iff σ m.id).mpr h), process_message_of_seen enum σ m h]
    simp
  · rw [if_neg (fun hc => h ((is_seen_iff σ m.id).mp hc))]

theorem window_skip (enum : List String → List String) (ms : List BotMain.Message)
    (σ : List String) (h : ∀ m ∈ ms, m.id ∈ σ) :
    BotMain.window_loop enum ms σ = (false, σ) := by
  induction ms with
  | nil => rfl
  | cons m rest ih =>
      rw [window_unfold, if_pos ((is_seen_iff σ m.id).mpr (h m (List.mem_cons_self m rest)))]
      exact ih (fun x hx => h x (List.mem_cons_of_mem m hx))

theorem search_unfold (enum : List String → List String) (msgs : List BotMain.Message)
    (k : Nat) (ks : List Nat) (σ : List String) :
    BotMain.search_loop enum msgs (k :: ks) σ =
      if (BotMain.window_loop enum (BotMain.fetch_recent msgs k).reverse σ).1
      then (true, (BotMain.window_loop enum (BotMain.fetch_recent msgs k).reverse σ).2)
      else BotMain.search_loop enum msgs ks
        (BotMain.window_loop enum (BotMain.fetch_recent msgs k).reverse σ).2 := rfl

end TransferBotRepo

namespace TransferBotRepo

theorem search_eq_scan (enum : List String → List String)
    (henum : ∀ l, (enum l).Perm l) (msgs : List BotMain.Message) (n : Nat) :
    ∀ a σ, (∀ m ∈ msgs.take a, m.id ∈ σ) → σ.length + n ≤ Storage.SEEN_CAP →
      BotMain.search_loop enum msgs (List.range' (a + 1) n) σ =
        BotMain.scan_messages enum ((msgs.drop a).take n) σ := by
  induction n with
  | zero => intro a σ _ _; rfl
  | succ n ih =>
      intro a σ hseen hcap
      have hσ : σ.length < Storage.SEEN_CAP := by omega
      rw [List.range'_succ (a + 1) n 1, search_unfold]
      by_cases ha : a < msgs.length
      · have htake : msgs.take (a + 1) = msgs.take a ++ [msgs[a]] := by
          rw [List.take_succ, List.getElem?_eq_getElem ha]
          rfl
        have hrev : (BotMain.fetch_recent msgs (a + 1)).reverse =
            msgs[a] :: (msgs.take a).reverse := by
          rw [show BotMain.fetch_recent msgs (a + 1) = msgs.take (a + 1) from rfl,
            htake, List.reverse_append]
          simp
        have hdrop : msgs.drop a = msgs[a] :: msgs.drop (a + 1) :=
          List.drop_eq_getElem_cons ha
        have hpremem : ∀ x ∈ (msgs.take a).reverse,
            x.id ∈ (BotMain.process_message enum σ msgs[a]).2.1 :=
          fun x hx => process_message_mono_small enum henum σ msgs[a] x.id hσ
            (hseen x (List.mem_reverse.mp hx))
        rw [hrev, window_cons, hdrop]
        rw [show ((msgs[a] :: msgs.drop (a + 1)).take (n + 1)) =
            msgs[a] :: (msgs.drop (a + 1)).take n from rfl, scan_cons]
        have hnext : ∀ m ∈ msgs.take (a + 1),
            m.id ∈ (BotMain.process_message enum σ msgs[a]).2.1 := by
          intro x hx
          rw [htake] at hx
          rcases List.mem_append.mp hx with hx | hx
          · exact process_message_mono_small enum henum σ msgs[a] x.id hσ (hseen x hx)
          · rw [List.mem_singleton.mp hx]
            exact process_message_mem_small enum henum σ msgs[a] hσ
        have hlen1 : (BotMain.process_message enum σ msgs[a]).2.1.length + n ≤
            Storage.SEEN_CAP := by
          have := process_message_length_small enum henum σ msgs[a] hσ
          omega
        by_cases hp : (BotMain.process_message enum σ msgs[a]).1 = true
        · rw [if_pos hp]
          simp [hp]
        · rw [if_neg hp, window_skip _ _ _ hpremem, if_neg hp]
          have hih := ih (a + 1) (BotMain.process_message enum σ msgs[a]).2.1 hnext hlen1
          simpa using hih
      · have hlen : msgs.length ≤ a := by omega
        have htakea : msgs.take a = msgs := List.take_of_length_le hlen
        have hwin : BotMain.fetch_recent msgs (a + 1) = msgs :=
          List.take_of_length_le (by omega)
        have hall : ∀ x ∈ (BotMain.fetch_recent msgs (a + 1)).reverse, x.id ∈ σ := by
          intro x hx
          rw [hwin, List.mem_reverse] at hx
          exact hseen x (by rw [htakea]; exact hx)
        rw [window_skip _ _ _ hall]
        have hnext : ∀ m ∈ msgs.take (a + 1), m.id ∈ σ := by
          intro x hx
          rw [List.take_of_length_le (by omega : msgs.length ≤ a + 1)] at hx
          exact hseen x (by rw [htakea]; exact hx)
        have hih := ih (a + 1) σ hnext (by omega)
        simpa [List.drop_eq_nil_of_le hlen,
          List.drop_eq_nil_of_le (show msgs.length ≤ a + 1 by omega)] using hih

theorem scan_spec (enum : List String → List String)
    (henum : ∀ l, (enum l).Perm l) (ms : List BotMain.Message) :
    ∀ σ, σ.length + ms.length ≤ Storage.SEEN_CAP →
      ((BotMain.scan_messages enum ms σ).1 = true ↔
        ∃ pre m post, ms = pre ++ m :: post ∧
          ContentAnalyzer.should_post m.text (ClubConfigs.detect_clubs m.text) = true ∧
          m.id ∉ σ ∧ ∀ p ∈ pre, p.id ≠ m.id) := by
  induction ms with
  | nil =>
      intro σ _
      constructor
      · intro h
        exact absurd h (by simp [BotMain.scan_messages])
      · rintro ⟨pre, m, post, hms, -, -, -⟩
        exact absurd hms (by simp)
  | cons m0 rest ih =>
      intro σ hcap
      simp only [List.length_cons] at hcap
      have hσ : σ.length < Storage.SEEN_CAP := by omega
      rw [scan_cons]
      by_cases h0 : m0.id ∈ σ
      · rw [process_message_of_seen enum σ m0 h0]
        show ((BotMain.scan_messages enum rest σ).1 = true ↔ _)
        rw [ih σ (by omega)]
        constructor
        · rintro ⟨pre, m, post, hms, hd, hns, hpre⟩
          refine ⟨m0 :: pre, m, post, by rw [hms]; rfl, hd, hns, ?_⟩
          intro p hp
          rcases List.mem_cons.mp hp with hp | hp
          · subst hp
            exact fun he => hns (he ▸ h0)
          · exact hpre p hp
        · rintro ⟨pre, m, post, hms, hd, hns, hpre⟩
          rcases pre with _ | ⟨p0, pre'⟩
          · rw [List.nil_append, List.cons_eq_cons] at hms
            exact absurd (hms.1 ▸ h0) hns
          · rw [List.cons_append, List.cons_eq_cons] at hms
            exact ⟨pre', m, post, hms.2, hd, hns,
              fun p hp => hpre p (List.mem_cons_of_mem _ hp)⟩
      · have hstate : (BotMain.process_message enum σ m0).2.1 = σ ++ [m0.id] := by
          rw [process_message_state, if_neg h0, mark_seen_small enum henum σ m0.id hσ,
            set_add_of_not_mem σ m0.id h0]
        by_cases hd0 : ContentAnalyzer.should_post m0.text (ClubConfigs.detect_clubs m0.text) = true
        · rw [if_pos (by rw [process_message_fst_unseen enum σ m0 h0]; exact hd0)]
          constructor
          · intro _
            exact ⟨[], m0, rest, rfl, hd0, h0, by simp⟩
          · intro _
            rfl
        · rw [if_neg (by rw [process_message_fst_unseen enum σ m0 h0]; exact hd0)]
          rw [hstate, ih (σ ++ [m0.id])
            (by simp only [List.length_append, List.length_cons, List.length_nil]; omega)]
          constructor
          · rintro ⟨pre, m, post, hms, hd, hns, hpre⟩
            refine ⟨m0 :: pre, m, post, by rw [hms]; rfl, hd,
              fun hc => hns (List.mem_append_left _ hc), ?_⟩
            intro p hp
            rcases List.mem_cons.mp hp with hp | hp
            · subst hp
              intro he
              exact hns (List.mem_append_right _ (by rw [← he]; exact List.mem_singleton_self _))
            · exact hpre p hp
          · rintro ⟨pre, m, post, hms, hd, hns, hpre⟩
            rcases pre with _ | ⟨p0, pre'⟩
            · rw [List.nil_append, List.cons_eq_cons] at hms
              exact absurd (hms.1 ▸ hd) hd0
            · rw [List.cons_append, List.cons_eq_cons] at hms
              refine ⟨pre', m, post, hms.2, hd, ?_,
                fun p hp => hpre p (List.mem_cons_of_mem _ hp)⟩
              intro hc
              rcases List.mem_append.mp hc with hc | hc
              · exact hns hc
              · exact hpre p0 (List.mem_cons_self _ _)
                  (by rw [← hms.1]; exact (List.mem_singleton.mp hc).symm)

theorem ids2019_not_mem :
    ("XX" : String) ∉ (List.range 2019).map (fun n => String.mk [Char.ofNat n]) := by
  intro h
  rw [List.mem_map] at h
  obtain ⟨n, -, hn⟩ := h
  have h2 := congrArg (fun s => s.data.length) hn
  have h3 : (1 : Nat) = "XX".data.length := h2
  exact absurd h3 (by decide)

theorem mark_seen_reverse_evicts (σ : List String) (id : String)
    (hid : id ∉ σ) (hlen : σ.length = 2019) :
    mark_seen List.reverse σ id = σ.reverse.drop 19 ∧ id ∉ σ.reverse.drop 19 := by
  have hadd : set_add σ id = σ ++ [id] := set_add_of_not_mem σ id hid
  have hl1 : (set_add σ id).length = 2020 := by
    rw [hadd]
    simp [hlen]
  have hrevapp : List.reverse (σ ++ [id]) = id :: σ.reverse := by
    rw [List.reverse_append]
    simp
  constructor
  · unfold mark_seen
    rw [if_pos (by rw [hl1])]
    unfold Storage.save_mem
    rw [hadd]
    have hlr : (List.reverse (σ ++ [id])).length = 2020 := by
      simp [hlen]
    rw [if_pos (by rw [hlr]; decide)]
    rw [hlr]
    rw [show (2020 - Storage.SEEN_CAP : Nat) = 20 from rfl]
    rw [hrevapp]
    rw [show (20 : Nat) = 19 + 1 from rfl, List.drop_succ_cons]
  · intro h
    exact hid (List.mem_reverse.mp ((List.drop_sublist 19 σ.reverse).subset h))

end TransferBotRepo

/-! ### Claims -/

namespace TransferBotRepo

/-- C1: `should_post(text, clubs)` is true iff the text is not spam, the club
list is non-empty, the text is transfer-related, and either confidence is
`high` with source tier in {1,2}, or confidence is `medium` with tier 1;
in all other cases (including `low` confidence) it is false. -/
theorem C1_channel_policy_gate (text : List Char) (clubs : List String) :
    ContentAnalyzer.should_post text clubs = true ↔
      ContentAnalyzer.is_spam text = false ∧ clubs ≠ [] ∧
      ContentAnalyzer.is_transfer_related text = true ∧
      ((ContentAnalyzer.get_confidence_level text = "high" ∧
          (ContentAnalyzer.get_source_tier text = 1 ∨
           ContentAnalyzer.get_source_tier text = 2)) ∨
       (ContentAnalyzer.get_confidence_level text = "medium" ∧
          ContentAnalyzer.get_source_tier text = 1)) := by
  have htier := tier_cases text
  unfold ContentAnalyzer.should_post
  split_ifs with h1 h2 h3 <;>
    rcases htier with ht | ht | ht <;>
    simp_all [List.isEmpty_iff, Bool.not_eq_true]

/-- C2: a club-subreddit item is accepted iff its flair is one of the three
allow-set labels (no flair rejects); an r/soccer item is accepted iff it is
transfer-related, has score at least 100, and does not carry a flair outside
the allow-set whose lowercase form mentions "tier"; in particular any
r/soccer item with score below 100 (e.g. 50) is rejected. -/
theorem C2_subreddit_filter (s : RedditBot.Submission) (k : String) :
    (k ≠ "soccer" →
      (RedditBot.accept_submission s k = true ↔
        ∃ f, s.link_flair_text = some f ∧ f ∈ RedditBot.target_flairs)) ∧
    (k = "soccer" →
      (RedditBot.accept_submission s k = true ↔
        RedditBot.is_transfer_related s.title s.selftext = true ∧
        (100 : Int) ≤ s.score ∧
        ¬ ∃ f, s.link_flair_text = some f ∧ f ∉ RedditBot.target_flairs ∧
            containsSub "tier".toList (lowerChars f) = true)) ∧
    (k = "soccer" → s.score < 100 → RedditBot.accept_submission s k = false) := by
  refine ⟨fun hk => ?_, fun hk => ?_, fun hk hsc => ?_⟩
  · unfold RedditBot.accept_submission
    rw [if_pos hk]
    rcases hf : s.link_flair_text with _ | f
    · simp
    · simp [List.elem_iff]
  · unfold RedditBot.accept_submission
    rw [if_neg (by simp [hk])]
    by_cases ht : RedditBot.is_transfer_related s.title s.selftext = true
    · rw [if_neg (by simp [ht])]
      by_cases hsc : s.score < 100
      · rw [if_pos hsc]
        simp [ht]
        omega
      · rw [if_neg hsc]
        rcases hf : s.link_flair_text with _ | f
        · simp [ht, hf]
          omega
        · rcases eq_or_ne f [] with he | he
          · subst he
            simp [ht, hf]
            exact ⟨by omega, by decide⟩
          · by_cases hmem : f ∈ RedditBot.target_flairs
            · simp [ht, hf, hmem]
              omega
            · by_cases htier : containsSub "tier".toList (lowerChars f) = true
              · simp [ht, hf, he, hmem, htier]
                intro _
                omega
              · simp [ht, hf, he, hmem, htier]
                omega
    · rw [if_pos (by simp [Bool.not_eq_true] at ht ⊢; exact ht)]
      simp [Bool.not_eq_true] at ht
      simp [ht]
  · unfold RedditBot.accept_submission
    rw [if_neg (by simp [hk])]
    split_ifs <;> simp_all

/-- Witness for C2 at a concrete club-subreddit submission with a Tier 1
flair. -/
theorem C2_witness :
    ("chelseafc" : String) ≠ "soccer" ∧
    (RedditBot.accept_submission
        ⟨"abc", "x".toList, [], some "Tier 1".toList, 0⟩ "chelseafc" = true ↔
      ∃ f, (RedditBot.Submission.mk "abc" "x".toList [] (some "Tier 1".toList) 0).link_flair_text
            = some f ∧ f ∈ RedditBot.target_flairs) :=
  ⟨by decide,
   (C2_subreddit_filter ⟨"abc", "x".toList, [], some "Tier 1".toList, 0⟩ "chelseafc").1
     (by decide)⟩

/-- C5: after a persist, the stored seen set has at most `SEEN_CAP = 2000`
entries, and persisting `cap + k` distinct identifiers (k > 0) leaves exactly
`cap` entries. -/
theorem C5_seen_cap_invariant {α : Type} [DecidableEq α] (l : List α) :
    (Storage.save l).toFinset.card ≤ Storage.SEEN_CAP ∧
    (∀ k, 0 < k → l.Nodup → l.length = Storage.SEEN_CAP + k →
      (Storage.save l).toFinset.card = Storage.SEEN_CAP) := by
  constructor
  · unfold Storage.save
    split_ifs with h
    · calc ((l.drop (l.length - Storage.SEEN_CAP)).toFinset).card
          ≤ (l.drop (l.length - Storage.SEEN_CAP)).length := List.toFinset_card_le _
        _ = l.length - (l.length - Storage.SEEN_CAP) := List.length_drop _ _
        _ ≤ Storage.SEEN_CAP := by omega
    · calc (l.toFinset).card ≤ l.length := List.toFinset_card_le _
        _ ≤ Storage.SEEN_CAP := by omega
  · intro k hk hnd hlen
    unfold Storage.save
    rw [if_pos (by omega)]
    rw [List.toFinset_card_of_nodup (List.Sublist.nodup (List.drop_sublist _ _) hnd)]
    rw [List.length_drop]
    omega

/-- Witness for C5 at the 2001 distinct identifiers 0..2000. -/
theorem C5_witness :
    (0 : Nat) < 1 ∧ (List.range 2001).Nodup ∧
    (List.range 2001).length = Storage.SEEN_CAP + 1 ∧
    (Storage.save (List.range 2001)).toFinset.card = Storage.SEEN_CAP :=
  ⟨Nat.one_pos, List.nodup_range _, by rw [List.length_range]; rfl,
   (C5_seen_cap_invariant (List.range 2001)).2 1 Nat.one_pos (List.nodup_range _)
     (by rw [List.length_range]; rfl)⟩

/-- C4: eviction at persist time is NOT insertion-order FIFO.  The code
truncates `list(self.seen_messages)`, an arbitrary-order enumeration of a
Python set.  With identifiers 0..2000 inserted in that order, the reversed
enumeration is a legal iteration order of the same set, yet truncating it
keeps the oldest identifier 0 and evicts the newest identifier 2000 —
the opposite of what truncating the insertion order does. -/
theorem C4_eviction_not_insertion_order :
    ((List.range 2001).reverse).Perm (List.range 2001) ∧
    (0 : Nat) ∈ Storage.save ((List.range 2001).reverse) ∧
    (2000 : Nat) ∉ Storage.save ((List.range 2001).reverse) ∧
    (0 : Nat) ∉ Storage.save (List.range 2001) ∧
    (2000 : Nat) ∈ Storage.save (List.range 2001) := by
  have hrev : (List.range 2001).reverse = 2000 :: (List.range 2000).reverse := by
    rw [show (2001 : Nat) = 2000 + 1 from rfl, List.range_succ, List.reverse_append]
    simp
  have hsave1 : Storage.save ((List.range 2001).reverse) = (List.range 2000).reverse := by
    unfold Storage.save
    rw [if_pos (by simp [Storage.SEEN_CAP])]
    rw [List.length_reverse, List.length_range]
    rw [show (2001 - Storage.SEEN_CAP : Nat) = 1 from rfl, hrev]
    rw [List.drop_one, List.tail_cons]
  have hsave2 : Storage.save (List.range 2001) = (List.range 2000).map Nat.succ := by
    unfold Storage.save
    rw [if_pos (by simp [Storage.SEEN_CAP])]
    rw [List.length_range]
    rw [show (2001 - Storage.SEEN_CAP : Nat) = 1 from rfl]
    rw [show (2001 : Nat) = 2000 + 1 from rfl, List.range_succ_eq_map]
    rw [List.drop_one, List.tail_cons]
  refine ⟨List.reverse_perm _, ?_, ?_, ?_, ?_⟩
  · rw [hsave1, List.mem_reverse, List.mem_range]
    omega
  · rw [hsave1, List.mem_reverse, List.mem_range]
    omega
  · rw [hsave2]
    simp
  · rw [hsave2]
    simp only [List.mem_map, List.mem_range]
    exact ⟨1999, by omega, rfl⟩

/-- C6: per-item classification and policy evaluation is total (the embedded
decision is a total boolean function), and empty or club-less text resolves
to a reject decision. -/
theorem C6_pipeline_total (text : List Char) :
    (ContentAnalyzer.should_post text (ClubConfigs.detect_clubs text) = true ∨
     ContentAnalyzer.should_post text (ClubConfigs.detect_clubs text) = false) ∧
    (ClubConfigs.detect_clubs text = [] →
      ContentAnalyzer.should_post text (ClubConfigs.detect_clubs text) = false) ∧
    (text = [] →
      ContentAnalyzer.should_post text (ClubConfigs.detect_clubs text) = false) := by
  refine ⟨Bool.eq_false_or_eq_true _, fun h => ?_, fun h => ?_⟩
  · unfold ContentAnalyzer.should_post
    simp [h]
  · subst h
    decide

/-- Witness for C6 at the empty text. -/
theorem C6_witness :
    ClubConfigs.detect_clubs [] = [] ∧
      ContentAnalyzer.should_post [] (ClubConfigs.detect_clubs []) = false :=
  ⟨by decide, (C6_pipeline_total []).2.1 (by decide)⟩

/-- C10: every transfer-related text (channel path) gets confidence `high` or
`medium`, never `low`, so the final low-confidence branch of `should_post`
cannot fire once the transfer-related gate has passed. -/
theorem C10_transfer_related_never_low (text : List Char)
    (h : ContentAnalyzer.is_transfer_related text = true) :
    ContentAnalyzer.get_confidence_level text = "high" ∨
      ContentAnalyzer.get_confidence_level text = "medium" := by
  unfold ContentAnalyzer.get_confidence_level
  unfold ContentAnalyzer.is_transfer_related at h
  split_ifs with h1 <;> simp_all

/-- Witness for C10 at the text "transfer". -/
theorem C10_witness :
    ContentAnalyzer.is_transfer_related "transfer".toList = true ∧
      (ContentAnalyzer.get_confidence_level "transfer".toList = "high" ∨
       ContentAnalyzer.get_confidence_level "transfer".toList = "medium") :=
  ⟨by decide, C10_transfer_related_never_low _ (by decide)⟩

end TransferBotRepo

namespace TransferBotRepo

/-- C7: the webhook fan-out visits every configured destination (no early
exit on an error or a non-accepted status), and reports the message as
delivered iff at least one destination returned the accepted 204 status;
this holds for both `DiscordSender.send_message` and
`MultiClubRedditBot.send_to_discord`. -/
theorem C7_notifier_fanout (outcomes : List PostOutcome) :
    (DiscordSender.send_message outcomes).2.2 = outcomes.length ∧
    ((DiscordSender.send_message outcomes).1 = true ↔ PostOutcome.status 204 ∈ outcomes) ∧
    (DiscordSender.send_to_discord outcomes).2.2 = outcomes.length ∧
    ((DiscordSender.send_to_discord outcomes).1 = true ↔ PostOutcome.status 204 ∈ outcomes) := by
  have h := webhook_loop_spec outcomes 0 0
  unfold DiscordSender.send_message DiscordSender.send_to_discord
  rw [h]
  simp [count204_pos]

/-- C8 counterexample: the channel-path and subreddit-path transfer-relatedness
predicates are not extensionally equal; they disagree on the text "rumour"
(a keyword only the subreddit list contains). -/
theorem C8_keyword_lists_differ :
    ContentAnalyzer.is_transfer_related "rumour".toList = false ∧
    RedditBot.is_transfer_related "rumour".toList [] = true ∧
    ContentAnalyzer.is_transfer_related "rumour".toList ≠
      RedditBot.is_transfer_related "rumour".toList [] := by decide

/-- C8 (amended): the channel keyword list is a subset of the subreddit
keyword list, so channel-path transfer-relatedness implies subreddit-path
transfer-relatedness (with empty body); the converse fails. -/
theorem C8_channel_implies_subreddit (text : List Char)
    (h : ContentAnalyzer.is_transfer_related text = true) :
    RedditBot.is_transfer_related text [] = true := by
  unfold ContentAnalyzer.is_transfer_related at h
  show RedditBot.transfer_keywords.any
      (fun k => containsSub k (lowerChars (text ++ ' ' :: []))) = true
  rw [List.any_eq_true] at h ⊢
  obtain ⟨kw, hkw, hc⟩ := h
  refine ⟨kw, ?_, ?_⟩
  · exact (by decide :
      ∀ x ∈ ContentAnalyzer.TRANSFER_KEYWORDS, x ∈ RedditBot.transfer_keywords) kw hkw
  · rw [containsSub_iff] at hc ⊢
    have hlow : lowerChars (text ++ ' ' :: []) = lowerChars text ++ [' '] := by
      simp [lowerChars]
    rw [hlow]
    obtain ⟨u, v, huv⟩ := hc
    exact ⟨u, v ++ [' '], by rw [← huv]; simp⟩

/-- Witness for the amended C8 at the text "transfer". -/
theorem C8_witness :
    ContentAnalyzer.is_transfer_related "transfer".toList = true ∧
      RedditBot.is_transfer_related "transfer".toList [] = true :=
  ⟨by decide, C8_channel_implies_subreddit _ (by decide)⟩

end TransferBotRepo

namespace TransferBotRepo

/-- C3 (code bug): the second call is NOT always a no-op.  With 2019
identifiers already seen, marking one more reaches 2020 — a multiple of 20
above the cap — so the periodic save fires and truncates an arbitrary set
enumeration; under the reversed enumeration the just-marked identifier "XX"
is evicted, and a second call with the same identifier classifies and
notifies again, in both the channel pipeline (`process_message` posts twice)
and the subreddit pipeline (`process_submission` makes a second fan-out
attempt). -/
theorem C3_second_call_renotifies :
    (BotMain.process_message List.reverse
        ((List.range 2019).map (fun n => String.mk [Char.ofNat n]))
        ⟨"XX", "Fabrizio Romano: Chelsea agree deal".toList⟩).1 = true ∧
    ("XX" : String) ∉ (BotMain.process_message List.reverse
        ((List.range 2019).map (fun n => String.mk [Char.ofNat n]))
        ⟨"XX", "Fabrizio Romano: Chelsea agree deal".toList⟩).2.1 ∧
    (BotMain.process_message List.reverse
        (BotMain.process_message List.reverse
            ((List.range 2019).map (fun n => String.mk [Char.ofNat n]))
            ⟨"XX", "Fabrizio Romano: Chelsea agree deal".toList⟩).2.1
        ⟨"XX", "Fabrizio Romano: Chelsea agree deal".toList⟩).1 = true ∧
    (RedditBot.process_submission List.reverse
        ((List.range 2019).map (fun n => String.mk [Char.ofNat n]))
        ⟨"XX", "big transfer".toList, [], none, 150⟩ "soccer" true).2.2 = 1 ∧
    ("XX" : String) ∉ (RedditBot.process_submission List.reverse
        ((List.range 2019).map (fun n => String.mk [Char.ofNat n]))
        ⟨"XX", "big transfer".toList, [], none, 150⟩ "soccer" true).2.1 ∧
    (RedditBot.process_submission List.reverse
        (RedditBot.process_submission List.reverse
            ((List.range 2019).map (fun n => String.mk [Char.ofNat n]))
            ⟨"XX", "big transfer".toList, [], none, 150⟩ "soccer" true).2.1
        ⟨"XX", "big transfer".toList, [], none, 150⟩ "soccer" true).2.2 = 1 := by
  have hnm : ("XX" : String) ∉ (List.range 2019).map (fun n => String.mk [Char.ofNat n]) :=
    ids2019_not_mem
  have hlen : ((List.range 2019).map (fun n => String.mk [Char.ofNat n])).length = 2019 := by
    simp
  obtain ⟨hmk, hout⟩ :=
    mark_seen_reverse_evicts ((List.range 2019).map (fun n => String.mk [Char.ofNat n]))
      "XX" hnm hlen
  have hstate : (BotMain.process_message List.reverse
      ((List.range 2019).map (fun n => String.mk [Char.ofNat n]))
      ⟨"XX", "Fabrizio Romano: Chelsea agree deal".toList⟩).2.1 =
      ((List.range 2019).map (fun n => String.mk [Char.ofNat n])).reverse.drop 19 := by
    rw [process_message_state, if_neg hnm, hmk]
  have hacc : RedditBot.accept_submission
      ⟨"XX", "big transfer".toList, [], none, 150⟩ "soccer" = true := by decide
  have hsub1 : (RedditBot.process_submission List.reverse
      ((List.range 2019).map (fun n => String.mk [Char.ofNat n]))
      ⟨"XX", "big transfer".toList, [], none, 150⟩ "soccer" true).2.1 =
      mark_seen List.reverse
        ((List.range 2019).map (fun n => String.mk [Char.ofNat n])) "XX" := by
    unfold RedditBot.process_submission
    rw [if_neg (fun hc => hnm ((is_seen_iff _ _).mp hc)), if_pos hacc]
  refine ⟨?_, ?_, ?_, ?_, ?_, ?_⟩
  · rw [process_message_fst_unseen _ _ _ hnm]
    decide
  · rw [hstate]
    exact hout
  · rw [hstate, process_message_fst_unseen _ _ _ hout]
    decide
  · unfold RedditBot.process_submission
    rw [if_neg (fun hc => hnm ((is_seen_iff _ _).mp hc)), if_pos hacc]
  · rw [hsub1, hmk]
    exact hout
  · rw [hsub1, hmk]
    unfold RedditBot.process_submission
    rw [if_neg (fun hc => hout ((is_seen_iff _ _).mp hc)), if_pos hacc]

/-- C9: the backfill search tries window sizes 1..max_limit in order
(fetching the newest `k` items and processing them oldest-to-newest),
returning true immediately on the first item whose processing posts and
false when no window posts.  Whenever the loaded seen set leaves room for
`max_limit` insertions under the 2000-entry cap — so that no periodic-save
truncation can fire mid-search — the search is equal to a newest-first
one-at-a-time scan of the first `max_limit` feed items, and returns true iff
some not-already-seen item among them passes the posting policy. -/
theorem C9_backfill_search (enum : List String → List String)
    (henum : ∀ l, (enum l).Perm l) (msgs : List BotMain.Message)
    (σ : List String) (max_limit : Nat)
    (hcap : σ.length + max_limit ≤ Storage.SEEN_CAP) :
    BotMain.find_first_sendable_message enum msgs σ max_limit =
      BotMain.scan_messages enum (msgs.take max_limit) σ ∧
    ((BotMain.find_first_sendable_message enum msgs σ max_limit).1 = true ↔
      ∃ pre m post, msgs.take max_limit = pre ++ m :: post ∧
        ContentAnalyzer.should_post m.text (ClubConfigs.detect_clubs m.text) = true ∧
        m.id ∉ σ ∧ ∀ p ∈ pre, p.id ≠ m.id) := by
  have h1 : BotMain.find_first_sendable_message enum msgs σ max_limit =
      BotMain.scan_messages enum (msgs.take max_limit) σ := by
    unfold BotMain.find_first_sendable_message
    have h := search_eq_scan enum henum msgs max_limit 0 σ (by simp) hcap
    simpa using h
  refine ⟨h1, ?_⟩
  rw [h1]
  refine scan_spec enum henum _ σ ?_
  have h2 : (msgs.take max_limit).length ≤ max_limit := by
    rw [List.length_take]
    omega
  omega

/-- Witness for C9: the empty seen set leaves room for the default window
maximum of 50. -/
theorem C9_witness :
    ([] : List String).length + 50 ≤ Storage.SEEN_CAP ∧
    BotMain.find_first_sendable_message List.reverse [] ([] : List String) 50 =
      BotMain.scan_messages List.reverse (([] : List BotMain.Message).take 50) [] :=
  ⟨by decide,
   (C9_backfill_search List.reverse (fun l => List.reverse_perm l) [] [] 50 (by decide)).1⟩

end TransferBotRepo
